import Mathlib

/-!
Verification of the `iroha_network` crate (src/iroha_network/src/lib.rs)
against its natural-language specification.

Modelling conventions, stated once here:

* Bytes are `Nat` values below 256; `Vec<u8>` and `&[u8]` are `List Nat`.
* A Rust `String` is its UTF-8 byte sequence together with the invariant
  that those bytes are valid UTF-8; we model it as the byte list and carry
  validity (`utf8Valid`) as an explicit hypothesis where a `String` is
  constructed.  `String::from_utf8` checks validity and keeps the bytes.
  Equality of Rust strings is equality of their byte lists.
* Rust panics (index out of range, `expect` on `Err`, subtraction
  overflow) are a distinct observable outcome, modelled by a dedicated
  constructor (`DecodeResult.panic`, `ExchangeResult.panic`).
* The asynchronous stream operations of one exchange are modelled by the
  record of their outcomes (`StreamEffects`): what the single `read` call
  yields, whether `write_all` and `flush` succeed.  The functions under
  verification consume exactly one such outcome per call site, mirroring
  the single `read` / `write_all` / `flush` calls in the source.
* Display strings of Rust errors (`e.to_string()`) are abstracted to
  fixed tokens; no claim depends on the exact text.
-/

set_option autoImplicit false

namespace IrohaNetwork

/-- BUFFER_SIZE from the source: `pub const BUFFER_SIZE: usize = 2048;`. -/
def BUFFER_SIZE : Nat := 2048

/-- Request from the source: `uri_path` is a Rust `String`, modelled as its
UTF-8 bytes, and `payload` is a `Vec<u8>`.  Equality is structural
(`derive PartialEq, Eq` in the source). -/
structure Request where
  uri_path : List Nat
  payload : List Nat
deriving DecidableEq, Repr

/-- Embedding of Rust `slice::split` with predicate `*byte == b"\n"[0]`,
i.e. split at every byte `0x0A`; separators are not included in the
output, and the result always has at least one (possibly empty) segment. -/
def splitNl : List Nat → List (List Nat)
  | [] => [[]]
  | b :: rest =>
    if b = 10 then [] :: splitNl rest
    else
      match splitNl rest with
      | [] => [[b]]
      | s :: ss => (b :: s) :: ss

/-- Continuation byte test for UTF-8: `0x80 ≤ b ≤ 0xBF`. -/
def isUtf8Cont (b : Nat) : Bool := 0x80 ≤ b && b ≤ 0xBF

/-- Validity of a byte sequence as UTF-8, exactly the check performed by
Rust `String::from_utf8` (rejecting overlong encodings, surrogate code
points and values above U+10FFFF). -/
def utf8Valid : List Nat → Bool
  | [] => true
  | b :: rest =>
    if b ≤ 0x7F then utf8Valid rest
    else if 0xC2 ≤ b && b ≤ 0xDF then
      match rest with
      | c1 :: rest2 => isUtf8Cont c1 && utf8Valid rest2
      | [] => false
    else if b = 0xE0 then
      match rest with
      | c1 :: c2 :: rest2 =>
        (0xA0 ≤ c1 && c1 ≤ 0xBF) && isUtf8Cont c2 && utf8Valid rest2
      | _ => false
    else if (0xE1 ≤ b && b ≤ 0xEC) || (0xEE ≤ b && b ≤ 0xEF) then
      match rest with
      | c1 :: c2 :: rest2 => isUtf8Cont c1 && isUtf8Cont c2 && utf8Valid rest2
      | _ => false
    else if b = 0xED then
      match rest with
      | c1 :: c2 :: rest2 =>
        (0x80 ≤ c1 && c1 ≤ 0x9F) && isUtf8Cont c2 && utf8Valid rest2
      | _ => false
    else if b = 0xF0 then
      match rest with
      | c1 :: c2 :: c3 :: rest2 =>
        (0x90 ≤ c1 && c1 ≤ 0xBF) && isUtf8Cont c2 && isUtf8Cont c3 && utf8Valid rest2
      | _ => false
    else if 0xF1 ≤ b && b ≤ 0xF3 then
      match rest with
      | c1 :: c2 :: c3 :: rest2 =>
        isUtf8Cont c1 && isUtf8Cont c2 && isUtf8Cont c3 && utf8Valid rest2
      | _ => false
    else if b = 0xF4 then
      match rest with
      | c1 :: c2 :: c3 :: rest2 =>
        (0x80 ≤ c1 && c1 ≤ 0x8F) && isUtf8Cont c2 && isUtf8Cont c3 && utf8Valid rest2
      | _ => false
    else false

/-- Decode errors of `TryFrom<Vec<u8>> for Request`.  `missingUrl` is the
`ok_or("Failed to get url.")` arm; `utf8Error` is a `FromUtf8Error` from
`String::from_utf8`. -/
inductive DecodeError where
  | missingUrl
  | utf8Error
deriving DecidableEq, Repr

/-- Display string of a decode error, for `e.to_string()`; the exact Rust
text is abstracted to a fixed token per error kind. -/
def DecodeError.toMessage : DecodeError → String
  | .missingUrl => "Failed to get url."
  | .utf8Error => "invalid utf-8 sequence"

/-- Possible outcomes of `Request::try_from`: a panic (no `Result` value is
produced at all), a decode error, or a parsed `Request`. -/
inductive DecodeResult where
  | panic
  | err (e : DecodeError)
  | ok (r : Request)
deriving DecidableEq, Repr

/-- Embedding of `impl TryFrom<Vec<u8>> for Request` (lib.rs lines 177-189):

  let mut split_iter = bytes.split(|byte| *byte == b"\n"[0]);
  let url = split_iter.next().ok_or("Failed to get url.")?;
  let payload: Vec<u8> = split_iter.flatten().cloned().collect();
  Ok(Request \x7b
      uri_path: String::from_utf8(url[..(url.len() - 1)].to_vec())?,
      payload,
  \x7d)

The slice expression `url[..(url.len() - 1)]` panics when `url` is empty
(subtraction overflow in debug builds, out-of-range slice in release
builds); for nonempty `url` it is `url.dropLast`.  `split` always yields
at least one segment, so the `missingUrl` arm is unreachable; it is kept
to mirror the source. -/
def try_from (bytes : List Nat) : DecodeResult :=
  match splitNl bytes with
  | [] => .err .missingUrl
  | url :: rest =>
    let payload : List Nat := rest.flatten
    if url = [] then .panic
    else if utf8Valid url.dropLast then .ok ⟨url.dropLast, payload⟩
    else .err .utf8Error

/-- Embedding of `impl From<Request> for Vec<u8>` (lib.rs lines 167-175),
written as the same sequence of extend operations on an initially empty
vector. -/
def requestToBytes (request : Request) : List Nat :=
  let bytes : List Nat := []
  let bytes := bytes ++ request.uri_path
  let bytes := bytes ++ [13, 10]
  let bytes := bytes ++ request.payload
  bytes

/-- Outcome of one exchange or client call that can also abort: `panic`
carries the `expect` message. -/
inductive ExchangeResult where
  | panic (msg : String)
  | ok
  | err (msg : String)
deriving DecidableEq, Repr

/-- Outcomes of the stream operations one exchange performs, in source
order: the single `read` call (an I/O error or the bytes it deposited in
the buffer, at most `BUFFER_SIZE` of them), then `write_all`, then
`flush`. -/
structure StreamEffects where
  readResult : Except String (List Nat)
  writeResult : Except String Unit
  flushResult : Except String Unit

/-- Content of `buffer[..read_size]` after a read deposited `bs` at the
start of the zero-initialised `BUFFER_SIZE` buffer and returned
`read_size = bs.length`. -/
def readWindow (bs : List Nat) : List Nat :=
  ((bs ++ List.replicate (BUFFER_SIZE - bs.length) 0).take bs.length)

/-- Embedding of `Network::handle_message_async` (lib.rs lines 102-127).
The read outcome, the write outcome and the flush outcome come from
`effects`; `handler` is the caller-supplied request handler applied to the
shared state.  Returns the outcome together with the list of `write_all`
calls issued (each entry the bytes passed to one call):

  let read_size = stream.read(&mut buffer).await.expect("Request read failed.");
  let bytes: Vec<u8> = buffer[..read_size].to_vec();
  let request: Request = bytes.try_into().map_err(|e| e.to_string())?;
  let response = handler(state, request).await?;
  stream.write_all(&response).await.map_err(|e| e.to_string())?;
  stream.flush().await.map_err(|e| e.to_string())?;
  Ok(())

A failed `read` panics via `expect`; a panic inside `try_from` (empty
input or input starting with `0x0A`) propagates as a panic of the whole
call. -/
def handle_message_async {S : Type} (state : S) (effects : StreamEffects)
    (handler : S → Request → Except String (List Nat)) :
    ExchangeResult × List (List Nat) :=
  match effects.readResult with
  | .error _ => (.panic ("Request read failed."), [])
  | .ok bs =>
    match try_from (readWindow bs) with
    | .panic => (.panic ("slice index out of range"), [])
    | .err e => (.err e.toMessage, [])
    | .ok request =>
      match handler state request with
      | .error e => (.err e, [])
      | .ok response =>
        match effects.writeResult with
        | .error e => (.err e, [response])
        | .ok _ =>
          match effects.flushResult with
          | .error e => (.err e, [response])
          | .ok _ => (.ok, [response])

/-- Embedding of `Network::send_request_to` (lib.rs lines 55-68).
`connectResult` is the outcome of `TcpStream::connect`, `writeResult` of
`write_all(&payload)` where `payload = request.into()`, `flushResult` of
`flush`, and `readResult` of the single `read` into the `BUFFER_SIZE`
buffer.  On success the function returns `buffer[..read_size].to_vec()`:

  let mut stream = TcpStream::connect(server_url).await.map_err(...)?;
  let payload: Vec<u8> = request.into();
  stream.write_all(&payload).await.map_err(...)?;
  stream.flush().await.map_err(...)?;
  let mut buffer = [0u8; BUFFER_SIZE];
  let read_size = stream.read(&mut buffer).await.map_err(...)?;
  Ok(buffer[..read_size].to_vec()) -/
def send_request_to (connectResult : Except String Unit)
    (writeResult flushResult : Except String Unit)
    (readResult : Except String (List Nat)) (request : Request) :
    Except String (List Nat) :=
  match connectResult with
  | .error e => .error e
  | .ok _ =>
    let _payload : List Nat := requestToBytes request
    match writeResult with
    | .error e => .error e
    | .ok _ =>
      match flushResult with
      | .error e => .error e
      | .ok _ =>
        match readResult with
        | .error e => .error e
        | .ok bs => .ok (readWindow bs)

/-- One event of the accept loop: a successfully accepted connection
(carrying an abstract connection value) or an accept failure (the
`stream.map_err(|e| e.to_string())?` arm). -/
inductive AcceptEvent (C : Type) where
  | conn (c : C)
  | fail (e : String)

/-- Embedding of the `while let Some(stream) = listener.incoming().next()`
loop of `Network::listen` (lib.rs lines 89-96) over a finite prefix of the
incoming-event stream.  For each event: an accept failure returns that
error (`?` on `stream`); otherwise the caller-supplied connection handler
runs on a clone of the shared state, its error is returned by `?`, and on
its success the loop continues with the next event.  An exhausted event
list models `next()` returning `None` and falls through to `Ok(())`. -/
def listenLoop {C S : Type} (state : S)
    (handler : S → C → Except String Unit) :
    List (AcceptEvent C) → Except String Unit
  | [] => .ok ()
  | .fail e :: _ => .error e
  | .conn c :: rest =>
    match handler state c with
    | .error e => .error e
    | .ok _ => listenLoop state handler rest

/-- Embedding of `Network::listen` (lib.rs lines 77-97): `TcpListener::bind`
first (its failure returned via `?`), then the accept loop. -/
def listen {C S : Type} (bindResult : Except String Unit) (state : S)
    (handler : S → C → Except String Unit)
    (events : List (AcceptEvent C)) : Except String Unit :=
  match bindResult with
  | .error e => .error e
  | .ok _ => listenLoop state handler events

/-! ### Helper lemmas about the embedded operations -/

/-- The split of a byte sequence always has at least one segment (so the
`missingUrl` arm of `try_from` is dead code). -/
theorem splitNl_ne_nil (l : List Nat) : splitNl l ≠ [] := by
  induction l with
  | nil => simp [splitNl]
  | cons b rest ih =>
    simp only [splitNl]
    split
    · simp
    · cases h : splitNl rest <;> simp

/-- With no `0x0A` present, the split is one segment, the whole input. -/
theorem splitNl_eq_single {l : List Nat} (h : 10 ∉ l) : splitNl l = [l] := by
  induction l with
  | nil => rfl
  | cons b rest ih =>
    have hb : ¬ b = 10 := by
      intro hb
      exact h (by simp [hb])
    have hrest : 10 ∉ rest := by
      intro hm
      exact h (by simp [hm])
    simp [splitNl, hb, ih hrest]

/-- Splitting an input whose prefix up to the first `0x0A` is `a` peels off
`a` as the first segment and continues on the remainder. -/
theorem splitNl_append {a : List Nat} (b : List Nat) (h : 10 ∉ a) :
    splitNl (a ++ 10 :: b) = a :: splitNl b := by
  induction a with
  | nil => simp [splitNl]
  | cons x xs ih =>
    have hx : ¬ x = 10 := by
      intro hx
      exact h (by simp [hx])
    have hxs : 10 ∉ xs := by
      intro hm
      exact h (by simp [hm])
    simp [splitNl, hx, ih hxs]

/-- Concatenating all segments of the split recovers the input minus every
`0x0A` byte: the separators are dropped, not kept. -/
theorem flatten_splitNl (l : List Nat) :
    (splitNl l).flatten = l.filter (fun b => b != 10) := by
  induction l with
  | nil => rfl
  | cons b rest ih =>
    by_cases hb : b = 10
    · subst hb
      simp [splitNl, ih]
    · rcases hsp : splitNl rest with _ | ⟨s, ss⟩
      · exact absurd hsp (splitNl_ne_nil rest)
      · rw [hsp] at ih
        simp only [splitNl, if_neg hb, hsp, List.flatten_cons, List.filter_cons] at ih ⊢
        simp [hb, ih]

/-- Reading back `read_size` bytes from the window returns exactly the
bytes the read deposited. -/
theorem readWindow_eq (bs : List Nat) : readWindow bs = bs := by
  unfold readWindow
  exact List.take_left bs _

/-- Master description of `try_from` on an input with at least one `0x0A`
byte, split as `pre ++ 0x0A :: post` with `pre` newline-free: the route is
`pre` minus its final byte, and the payload is `post` with every further
`0x0A` byte removed. -/
theorem try_from_terminated {pre : List Nat} (post : List Nat)
    (hnl : 10 ∉ pre) (hne : pre ≠ []) :
    try_from (pre ++ 10 :: post) =
      if utf8Valid pre.dropLast then
        DecodeResult.ok ⟨pre.dropLast, post.filter (fun b => b != 10)⟩
      else DecodeResult.err DecodeError.utf8Error := by
  unfold try_from
  rw [splitNl_append post hnl]
  simp [hne, flatten_splitNl]

/-! ### Claims -/

/-- Claim C1, counterexample: the round-trip fails as stated.  The route
`[47, 97]` ("/a") is valid UTF-8 and contains neither `0x0A` nor `0x0D`,
yet for the payload `[98, 10, 99]` ("b\nc") the decode of the encode is
not the original request: the `0x0A` inside the payload is dropped. -/
theorem roundtrip_claim_cex :
    utf8Valid [47, 97] = true ∧ 10 ∉ [47, 97] ∧ 13 ∉ [47, 97] ∧
    try_from (requestToBytes ⟨[47, 97], [98, 10, 99]⟩) ≠
      DecodeResult.ok ⟨[47, 97], [98, 10, 99]⟩ := by
  refine ⟨by decide, by decide, by decide, ?_⟩
  decide

/-- Claim C1 (amended): the round trip of the wire codec holds for every
route string containing neither `0x0A` nor `0x0D` and every payload that
also contains no `0x0A` byte: decoding the encoding of such a pair
succeeds and yields a request with the same route and the same payload.
(The restriction on the payload is forced: a `0x0A` byte inside the
payload is dropped by decode, see the counterexample.) -/
theorem decode_encode_roundtrip {route payload : List Nat}
    (hutf : utf8Valid route = true) (hnl : 10 ∉ route) (hcr : 13 ∉ route)
    (hpnl : 10 ∉ payload) :
    try_from (requestToBytes ⟨route, payload⟩) =
      DecodeResult.ok ⟨route, payload⟩ := by
  have henc : requestToBytes ⟨route, payload⟩ = (route ++ [13]) ++ 10 :: payload := by
    simp [requestToBytes]
  have hnl13 : 10 ∉ route ++ [13] := by
    intro hm
    rcases List.mem_append.mp hm with hm | hm
    · exact hnl hm
    · simp at hm
  have hne : route ++ [13] ≠ [] := by simp
  rw [henc, try_from_terminated payload hnl13 hne, List.dropLast_concat]
  rw [if_pos hutf]
  have hfil : payload.filter (fun b => b != 10) = payload := by
    apply List.filter_eq_self.mpr
    intro a ha
    have : a ≠ 10 := fun hEq => hpnl (hEq ▸ ha)
    simpa using this
  rw [hfil]

/-- Claim C1 witness: the amended round trip at route "/p" and payload
`[1, 2, 3]`. -/
theorem decode_encode_roundtrip_witness :
    try_from (requestToBytes ⟨[47, 112], [1, 2, 3]⟩) =
      DecodeResult.ok ⟨[47, 112], [1, 2, 3]⟩ :=
  decode_encode_roundtrip (by decide) (by decide) (by decide) (by decide)

/-- Claim C2, counterexample: decode of the bytes "/a\nb\nc" does not
yield route "/a" with payload "b\nc"; the code splits at every `0x0A`,
drops the separators from the payload, and removes the final byte of the
first segment, yielding route "/" and payload "bc". -/
theorem first_delimiter_claim_cex :
    try_from [47, 97, 10, 98, 10, 99] = DecodeResult.ok ⟨[47], [98, 99]⟩ ∧
    DecodeResult.ok (Request.mk [47] [98, 99]) ≠
      DecodeResult.ok ⟨[47, 97], [98, 10, 99]⟩ := by
  decide

/-- Claim C2 (amended): decode splits at every `0x0A` byte, not once.  For
an input `pre ++ 0x0A :: post` with `pre` newline-free and nonempty whose
all-but-last bytes are valid UTF-8, the route is `pre` minus its final
byte and the payload is `post` with every remaining `0x0A` byte removed
(the bytes after the first `0x0A` are not taken verbatim). -/
theorem decode_splits_at_every_newline {pre : List Nat} (post : List Nat)
    (hnl : 10 ∉ pre) (hne : pre ≠ [])
    (hv : utf8Valid pre.dropLast = true) :
    try_from (pre ++ 10 :: post) =
      DecodeResult.ok ⟨pre.dropLast, post.filter (fun b => b != 10)⟩ := by
  rw [try_from_terminated post hnl hne, if_pos hv]

/-- Claim C2 witness: the amended statement at the spec input "/a\nb\nc". -/
theorem decode_splits_at_every_newline_witness :
    try_from ([47, 97] ++ 10 :: [98, 10, 99]) =
      DecodeResult.ok ⟨List.dropLast [47, 97], List.filter (fun b => b != 10) [98, 10, 99]⟩ :=
  decode_splits_at_every_newline [98, 10, 99] (by decide) (by decide) (by decide)

/-- Claim C3, counterexample: an input with no `0x0A` byte anywhere does
not fail with a missing-terminator error; `slice::split` always yields at
least one segment, so the bytes "abc" decode successfully to route "ab"
and an empty payload. -/
theorem missing_terminator_claim_cex :
    (10 ∉ [97, 98, 99]) ∧
    try_from [97, 98, 99] = DecodeResult.ok ⟨[97, 98], []⟩ := by
  refine ⟨by decide, ?_⟩
  decide

/-- Claim C3 (amended): on a nonempty input with no `0x0A` byte, decode
never reports a missing terminator: it succeeds with route equal to the
input minus its final byte and an empty payload when that slice is valid
UTF-8, and fails with the UTF-8 error otherwise.  (The empty input panics
instead, see the claim about the empty-prefix edge.) -/
theorem decode_without_terminator {bytes : List Nat}
    (h : 10 ∉ bytes) (hne : bytes ≠ []) :
    try_from bytes =
      (if utf8Valid bytes.dropLast then DecodeResult.ok ⟨bytes.dropLast, []⟩
       else DecodeResult.err DecodeError.utf8Error) ∧
    try_from bytes ≠ DecodeResult.err DecodeError.missingUrl := by
  have hchar : try_from bytes =
      (if utf8Valid bytes.dropLast then DecodeResult.ok ⟨bytes.dropLast, []⟩
       else DecodeResult.err DecodeError.utf8Error) := by
    unfold try_from
    rw [splitNl_eq_single h]
    simp [hne]
  refine ⟨hchar, ?_⟩
  rw [hchar]
  by_cases hv : utf8Valid bytes.dropLast <;> simp [hv]

/-- Claim C3 witness: the amended statement at the bytes "abc". -/
theorem decode_without_terminator_witness :
    (10 ∉ [97, 98, 99]) ∧
    try_from [97, 98, 99] ≠ DecodeResult.err DecodeError.missingUrl :=
  ⟨by decide, (@decode_without_terminator [97, 98, 99] (by decide) (by decide)).2⟩

/-- Claim C4, counterexample: when the read step reports an error, the
exchange helper does not return a Result-shaped outcome; the `expect` call
aborts with a panic. -/
theorem read_error_claim_cex :
    @handle_message_async Unit () ⟨Except.error ("connection reset"), Except.ok (), Except.ok ()⟩
      (fun _ _ => Except.ok []) = (ExchangeResult.panic ("Request read failed."), []) := by
  rfl

/-- Claim C4 (amended): a read error in `handle_message_async` is not
propagated as the error result of the exchange; the call aborts with the
panic of `expect("Request read failed.")`, before any bytes are written. -/
theorem read_error_causes_panic {S : Type} (state : S)
    (effects : StreamEffects) (handler : S → Request → Except String (List Nat))
    (e : String) (h : effects.readResult = Except.error e) :
    handle_message_async state effects handler =
      (ExchangeResult.panic ("Request read failed."), []) := by
  unfold handle_message_async
  rw [h]

/-- Claim C4 witness: the amended statement at a concrete read error. -/
theorem read_error_causes_panic_witness :
    @handle_message_async Unit () ⟨Except.error ("broken pipe"), Except.ok (), Except.ok ()⟩
      (fun _ _ => Except.ok [112]) = (ExchangeResult.panic ("Request read failed."), []) :=
  read_error_causes_panic () _ _ "broken pipe" rfl

/-- Claim C5, counterexample: for the input "/a\nx" the segment before the
first `0x0A` is "/a", which does not end in `0x0D`; the claim says the
route is then that entire segment, but the code removes the final byte
unconditionally and yields route "/". -/
theorem trailing_cr_claim_cex :
    try_from [47, 97, 10, 120] = DecodeResult.ok ⟨[47], [120]⟩ ∧
    ([47] : List Nat) ≠ [47, 97] := by
  refine ⟨?_, by decide⟩
  decide

/-- Claim C5 (amended): for an input with a `0x0A` byte whose nonempty
first segment `pre` is newline-free, the route is `pre` minus its final
byte, removed unconditionally (whether or not that byte is `0x0D`), and
decode fails exactly when that shortened slice is not valid UTF-8. -/
theorem route_drops_last_byte {pre : List Nat} (post : List Nat)
    (hnl : 10 ∉ pre) (hne : pre ≠ []) :
    (utf8Valid pre.dropLast = true →
      try_from (pre ++ 10 :: post) =
        DecodeResult.ok ⟨pre.dropLast, post.filter (fun b => b != 10)⟩) ∧
    (utf8Valid pre.dropLast = false →
      try_from (pre ++ 10 :: post) = DecodeResult.err DecodeError.utf8Error) := by
  constructor
  · intro hv
    rw [try_from_terminated post hnl hne, if_pos hv]
  · intro hv
    rw [try_from_terminated post hnl hne, if_neg (by simp [hv])]

/-- Claim C5 witness: the amended statement at "/a\nx" (valid UTF-8 case)
and at `[195, 10]` (invalid UTF-8 case: the shortened slice `[195]` is a
lone leading byte). -/
theorem route_drops_last_byte_witness :
    try_from ([47, 97] ++ 10 :: [120]) =
      DecodeResult.ok ⟨List.dropLast [47, 97], List.filter (fun b => b != 10) [120]⟩ ∧
    try_from ([195, 40] ++ 10 :: [120]) = DecodeResult.err DecodeError.utf8Error :=
  ⟨(route_drops_last_byte [120] (by decide) (by decide)).1 (by decide),
   (route_drops_last_byte [120] (by decide) (by decide)).2 (by decide)⟩

/-- Claim C6: the encoding of a request is the route bytes, then the fixed
two-byte separator `0x0D 0x0A`, then the payload verbatim; no length
prefix and no escaping. -/
theorem encode_is_concatenation (request : Request) :
    requestToBytes request = request.uri_path ++ [13, 10] ++ request.payload := by
  simp [requestToBytes]

/-- Claim C7: when `send_request_to` succeeds it returns exactly the bytes
its single read call produced, unmodified, and those bytes number at most
`BUFFER_SIZE` (the read fills a buffer of that fixed size). -/
theorem send_request_to_passthrough
    (connectResult writeResult flushResult : Except String Unit)
    (bs : List Nat) (request : Request)
    (hlen : bs.length ≤ BUFFER_SIZE)
    (hsucc : ∃ resp, send_request_to connectResult writeResult flushResult
        (Except.ok bs) request = Except.ok resp) :
    send_request_to connectResult writeResult flushResult
        (Except.ok bs) request = Except.ok bs ∧
    bs.length ≤ BUFFER_SIZE := by
  obtain ⟨resp, hresp⟩ := hsucc
  refine ⟨?_, hlen⟩
  cases connectResult with
  | error e => simp [send_request_to] at hresp
  | ok u =>
    cases writeResult with
    | error e => simp [send_request_to] at hresp
    | ok v =>
      cases flushResult with
      | error e => simp [send_request_to] at hresp
      | ok w => simp [send_request_to, readWindow_eq]

/-- Claim C7 witness: all steps succeed and the read yields `[1, 2]`. -/
theorem send_request_to_passthrough_witness :
    send_request_to (Except.ok ()) (Except.ok ()) (Except.ok ())
        (Except.ok [1, 2]) ⟨[47], []⟩ = Except.ok [1, 2] ∧
    List.length [1, 2] ≤ BUFFER_SIZE :=
  send_request_to_passthrough (Except.ok ()) (Except.ok ()) (Except.ok ())
    [1, 2] ⟨[47], []⟩ (by decide) ⟨readWindow [1, 2], rfl⟩

/-- The accept loop completes normally exactly when every event of the
stream is a successfully accepted connection on which the handler returns
Ok; any accept failure or handler error stops it with that error. -/
theorem listenLoop_ok_iff {C S : Type} (state : S)
    (handler : S → C → Except String Unit) (events : List (AcceptEvent C)) :
    listenLoop state handler events = Except.ok () ↔
      ∀ ev ∈ events, ∃ c, ev = AcceptEvent.conn c ∧
        handler state c = Except.ok () := by
  induction events with
  | nil => simp [listenLoop]
  | cons ev rest ih =>
    cases ev with
    | fail e =>
      simp only [listenLoop, List.mem_cons]
      constructor
      · intro h
        exact absurd h (by simp)
      · intro h
        obtain ⟨c, hc, _⟩ := h (AcceptEvent.fail e) (Or.inl rfl)
        exact absurd hc (by simp)
    | conn c =>
      cases hh : handler state c with
      | error e =>
        simp only [listenLoop, hh]
        constructor
        · intro h
          exact absurd h (by simp)
        · intro h
          obtain ⟨c2, hc2, hok⟩ := h (AcceptEvent.conn c) (by simp)
          cases hc2
          rw [hh] at hok
          exact absurd hok (by simp)
      | ok u =>
        simp only [listenLoop, hh]
        rw [ih]
        constructor
        · intro h
          intro ev hev
          rcases List.mem_cons.mp hev with hev | hev
          · exact ⟨c, by simp [hev, hh]⟩
          · exact h ev hev
        · intro h
          intro ev hev
          exact h ev (List.mem_cons_of_mem _ hev)

/-- Claim C8, counterexample: with a successful bind and an event stream
containing two successfully accepted connections and no accept failure,
a handler that returns an error terminates the whole `listen` call with
that error; the loop does not continue past a handler failure. -/
theorem listen_stops_on_handler_error_cex :
    @listen Nat Unit (Except.ok ()) ()
      (fun _ _ => Except.error ("handler failed"))
      [AcceptEvent.conn 0, AcceptEvent.conn 1] =
      Except.error ("handler failed") := by
  rfl

/-- Claim C8 (amended): `listen` returns Ok exactly when the bind succeeds
and every event of the incoming stream is a successfully accepted
connection on which the connection handler returns Ok; it terminates not
only on bind and accept failures but also whenever the handler returns an
error, which the `?` operator propagates as the terminal result. -/
theorem listen_termination_characterization {C S : Type}
    (bindResult : Except String Unit) (state : S)
    (handler : S → C → Except String Unit) (events : List (AcceptEvent C)) :
    listen bindResult state handler events = Except.ok () ↔
      bindResult = Except.ok () ∧
      ∀ ev ∈ events, ∃ c, ev = AcceptEvent.conn c ∧
        handler state c = Except.ok () := by
  cases bindResult with
  | error e =>
    simp [listen]
  | ok u =>
    cases u
    simp only [listen, true_and]
    rw [listenLoop_ok_iff]

/-- Claim C9: in `handle_message_async`, when the read succeeds but
decoding the bytes fails, the exchange returns the decode error (as its
display string) and writes no bytes; when decoding succeeds but the
caller-supplied handler returns an error, that error is propagated
verbatim and again no bytes are written. -/
theorem no_response_on_failed_exchange {S : Type} (state : S)
    (effects : StreamEffects) (handler : S → Request → Except String (List Nat))
    (bs : List Nat) (hread : effects.readResult = Except.ok bs) :
    (∀ e, try_from bs = DecodeResult.err e →
      handle_message_async state effects handler =
        (ExchangeResult.err (DecodeError.toMessage e), [])) ∧
    (∀ request msg, try_from bs = DecodeResult.ok request →
      handler state request = Except.error msg →
      handle_message_async state effects handler =
        (ExchangeResult.err msg, [])) := by
  constructor
  · intro e he
    simp only [handle_message_async, hread, readWindow_eq, he]
  · intro request msg hr hm
    simp only [handle_message_async, hread, readWindow_eq, hr, hm]

/-- Claim C9 witness: a malformed request (the shortened route slice
`[195]` is invalid UTF-8) yields the decode error with nothing written,
and a handler failure on a well-formed request propagates the handler
message "boom" with nothing written. -/
theorem no_response_on_failed_exchange_witness :
    @handle_message_async Unit () ⟨Except.ok [195, 40, 10, 7], Except.ok (), Except.ok ()⟩
      (fun _ _ => Except.ok []) =
      (ExchangeResult.err (DecodeError.toMessage DecodeError.utf8Error), []) ∧
    @handle_message_async Unit () ⟨Except.ok [47, 97, 10], Except.ok (), Except.ok ()⟩
      (fun _ _ => Except.error ("boom")) = (ExchangeResult.err "boom", []) :=
  ⟨(no_response_on_failed_exchange () _ _ [195, 40, 10, 7] rfl).1
      DecodeError.utf8Error (by decide),
   (no_response_on_failed_exchange () _ _ [47, 97, 10] rfl).2
      ⟨[47], []⟩ "boom" (by decide) rfl⟩

/-- Claim C10: decode is partial at the empty-prefix edge.  On the empty
input, and on every input whose first byte is `0x0A`, the first segment of
the split is empty and the slice expression `url[..(url.len() - 1)]`
panics, so `try_from` produces no Ok or Err value at all. -/
theorem decode_panics_on_empty_first_segment :
    try_from [] = DecodeResult.panic ∧
    ∀ rest : List Nat, try_from (10 :: rest) = DecodeResult.panic := by
  constructor
  · rfl
  · intro rest
    have h : splitNl (10 :: rest) = [] :: splitNl rest := by
      simp [splitNl]
    simp [try_from, h]

end IrohaNetwork

